import Mathlib

set_option maxHeartbeats 1000000
set_option maxRecDepth 4000

/-!
Shallow embedding of the discord-blooper repository (src/api/index.js,
src/bot/index.js) and proofs about the spec's claims.

Strings are modelled as `List Char` pipelines wrapped in `String`; machine
numbers appearing in the code (the slow-mode value) are modelled by an
explicit JS-number type with NaN and the infinities; remote calls are
modelled by an oracle environment supplying the result of each call in
sequence.
-/

/- ===================== JS character / string primitives ===================== -/

/-- Model of the character class matched by JavaScript `\s` (and removed by
`String.prototype.trim`): whitespace and line terminators. -/
def isJsWhitespace (c : Char) : Bool :=
  c.toNat == 9 || c.toNat == 10 || c.toNat == 11 || c.toNat == 12 || c.toNat == 13 ||
  c.toNat == 32 || c.toNat == 160 || c.toNat == 0x1680 ||
  (0x2000 ≤ c.toNat && c.toNat ≤ 0x200a) || c.toNat == 0x2028 || c.toNat == 0x2029 ||
  c.toNat == 0x202f || c.toNat == 0x205f || c.toNat == 0x3000 || c.toNat == 0xfeff

/-- Model of `String.prototype.toLowerCase` on the ASCII range (the only range
relevant to the normalizer, whose later stages replace every non-`[a-z0-9-]`
character by a dash). -/
def jsLower (c : Char) : Char :=
  if 65 ≤ c.toNat ∧ c.toNat ≤ 90 then Char.ofNat (c.toNat + 32) else c

/-- Model of `String.prototype.trim`: drop leading and trailing `\s` characters. -/
def jsTrim (l : List Char) : List Char :=
  ((l.dropWhile isJsWhitespace).reverse.dropWhile isJsWhitespace).reverse

/-- Model of a global regex replace of `X+` (one or more characters satisfying
`p`) by the single character `r`, as in `.replace(/\s+/g, "-")` and
`.replace(/\-+/g, "-")`.  The boolean argument records whether we are inside a
run that has already emitted its replacement character. -/
def replRun (p : Char → Bool) (r : Char) : Bool → List Char → List Char
  | _, [] => []
  | inRun, c :: t =>
    if p c then
      (if inRun then replRun p r true t else r :: replRun p r true t)
    else c :: replRun p r false t

/-- JSON values.  Numbers keep their (validated) source lexeme, so no floating
point is involved; object fields keep all parsed pairs in order (duplicate-key
collapsing of real `JSON.parse` is not modelled — no claim depends on it). -/
inductive Json where
  | null
  | bool (b : Bool)
  | num (lexeme : String)
  | str (s : String)
  | arr (elems : List Json)
  | obj (fields : List (String × Json))

/-- JSON insignificant whitespace. -/
def isJsonWs (c : Char) : Bool := c == ' ' || c == '\t' || c == '\n' || c == '\r'

def skipWs (l : List Char) : List Char := l.dropWhile isJsonWs

def hexVal (c : Char) : Option Nat :=
  if 48 ≤ c.toNat ∧ c.toNat ≤ 57 then some (c.toNat - 48)
  else if 97 ≤ c.toNat ∧ c.toNat ≤ 102 then some (c.toNat - 87)
  else if 65 ≤ c.toNat ∧ c.toNat ≤ 70 then some (c.toNat - 55)
  else none

/-- One escape sequence after a backslash inside a JSON string. -/
def parseEsc : List Char → Option (Char × List Char)
  | '"' :: t => some ('"', t)
  | '\\' :: t => some ('\\', t)
  | '/' :: t => some ('/', t)
  | 'b' :: t => some ('\x08', t)
  | 'f' :: t => some ('\x0c', t)
  | 'n' :: t => some ('\n', t)
  | 'r' :: t => some ('\r', t)
  | 't' :: t => some ('\t', t)
  | 'u' :: a :: b :: c :: d :: t =>
    match hexVal a, hexVal b, hexVal c, hexVal d with
    | some ha, some hb, some hc, some hd =>
      some (Char.ofNat (ha * 4096 + hb * 256 + hc * 16 + hd), t)
    | _, _, _, _ => none
  | _ => none

/-- Body of a JSON string after the opening quote; returns the decoded
characters and the remainder after the closing quote. -/
def parseStrBody : Nat → List Char → Option (List Char × List Char)
  | 0, _ => none
  | _, [] => none
  | fuel + 1, c :: t =>
    if c = '"' then some ([], t)
    else if c = '\\' then
      match parseEsc t with
      | some (e, t') => (parseStrBody fuel t').map (fun p => (e :: p.1, p.2))
      | none => none
    else if c.toNat < 32 then none
    else (parseStrBody fuel t).map (fun p => (c :: p.1, p.2))

/-- Integer part of a JSON number: `0` or a nonzero digit followed by digits. -/
def parseIntPart : List Char → Option (List Char × List Char)
  | '0' :: t => some (['0'], t)
  | l =>
    let ds := l.takeWhile Char.isDigit
    if ds = [] then none else some (ds, l.dropWhile Char.isDigit)

/-- Optional fraction part `(\.[0-9]+)?`. -/
def parseFrac : List Char → Option (List Char × List Char)
  | '.' :: t =>
    let ds := t.takeWhile Char.isDigit
    if ds = [] then none else some ('.' :: ds, t.dropWhile Char.isDigit)
  | l => some ([], l)

/-- Optional exponent part `([eE][+-]?[0-9]+)?`. -/
def parseExp : List Char → Option (List Char × List Char)
  | c :: t =>
    if c = 'e' ∨ c = 'E' then
      let sg : List Char × List Char :=
        match t with
        | '+' :: u => (['+'], u)
        | '-' :: u => (['-'], u)
        | _ => ([], t)
      let ds := sg.2.takeWhile Char.isDigit
      if ds = [] then none else some (c :: sg.1 ++ ds, sg.2.dropWhile Char.isDigit)
    else some ([], c :: t)
  | [] => some ([], [])

/-- A JSON number lexeme with its suffix remainder. -/
def parseNum (l : List Char) : Option (List Char × List Char) :=
  let sn : List Char × List Char :=
    match l with
    | '-' :: t => (['-'], t)
    | _ => ([], l)
  match parseIntPart sn.2 with
  | none => none
  | some (ip, r1) =>
    match parseFrac r1 with
    | none => none
    | some (fp, r2) =>
      match parseExp r2 with
      | none => none
      | some (ep, r3) => some (sn.1 ++ ip ++ fp ++ ep, r3)

mutual

/-- Model of `JSON.parse` value parsing (recursive descent, explicit fuel). -/
def parseValue : Nat → List Char → Option (Json × List Char)
  | 0, _ => none
  | fuel + 1, l =>
    match skipWs l with
    | [] => none
    | c :: t =>
      if c = '\x7b' then
        match skipWs t with
        | '\x7d' :: r => some (.obj [], r)
        | r => parseMembers fuel r
      else if c = '[' then
        match skipWs t with
        | ']' :: r => some (.arr [], r)
        | r => parseElems fuel r
      else if c = '"' then
        (parseStrBody (t.length + 1) t).map (fun p => (.str ⟨p.1⟩, p.2))
      else if c = 't' then
        match t with
        | 'r' :: 'u' :: 'e' :: r => some (.bool true, r)
        | _ => none
      else if c = 'f' then
        match t with
        | 'a' :: 'l' :: 's' :: 'e' :: r => some (.bool false, r)
        | _ => none
      else if c = 'n' then
        match t with
        | 'u' :: 'l' :: 'l' :: r => some (.null, r)
        | _ => none
      else
        (parseNum (c :: t)).map (fun p => (.num ⟨p.1⟩, p.2))

/-- Members of a JSON object, positioned at the first key's opening quote. -/
def parseMembers : Nat → List Char → Option (Json × List Char)
  | 0, _ => none
  | fuel + 1, l =>
    match l with
    | '"' :: t =>
      match parseStrBody (t.length + 1) t with
      | none => none
      | some (k, r1) =>
        match skipWs r1 with
        | ':' :: r2 =>
          match parseValue fuel r2 with
          | none => none
          | some (v, r3) =>
            match skipWs r3 with
            | ',' :: r4 =>
              (match parseMembers fuel (skipWs r4) with
               | some (.obj ms, r5) => some (.obj ((⟨k⟩, v) :: ms), r5)
               | _ => none)
            | '\x7d' :: r4 => some (.obj [(⟨k⟩, v)], r4)
            | _ => none
        | _ => none
    | _ => none

/-- Elements of a JSON array, positioned at the first element. -/
def parseElems : Nat → List Char → Option (Json × List Char)
  | 0, _ => none
  | fuel + 1, l =>
    match parseValue fuel l with
    | none => none
    | some (v, r) =>
      match skipWs r with
      | ',' :: r2 =>
        (match parseElems fuel r2 with
         | some (.arr vs, r3) => some (.arr (v :: vs), r3)
         | _ => none)
      | ']' :: r2 => some (.arr [v], r2)
      | _ => none

end

/-- Model of `JSON.parse`: a single value with only whitespace around it. -/
def jsonParse (l : List Char) : Option Json :=
  match parseValue (2 * l.length + 4) l with
  | some (v, r) => if skipWs r = [] then some v else none
  | none => none

/- ===================== indexOf / lastIndexOf / substring ===================== -/

/-- Index of the first occurrence of `c`. -/
def firstIdxFrom (c : Char) : List Char → Option Nat
  | [] => none
  | x :: t => if x = c then some 0 else (firstIdxFrom c t).map (· + 1)

/-- Model of `String.prototype.indexOf` for a single character (as an Option
instead of the sentinel `-1`). -/
def jsIndexOf (l : List Char) (c : Char) : Option Nat := firstIdxFrom c l

/-- Model of `String.prototype.lastIndexOf` for a single character. -/
def jsLastIndexOf (l : List Char) (c : Char) : Option Nat :=
  (firstIdxFrom c l.reverse).map (fun i => l.length - 1 - i)

/-- Model of `String.prototype.substring`: indices clamped to the length and
swapped when given in reverse order. -/
def jsSub (l : List Char) (a b : Nat) : List Char :=
  let a' := min a l.length
  let b' := min b l.length
  ((l.drop (min a' b')).take (max a' b' - min a' b'))

/-- Model of `extractJSON` (src/api/index.js 72-89): empty input is a
"Model returned empty response" error; otherwise take the substring from the
first `\x7b` to the last `\x7d` and `JSON.parse` it, turning a missing brace or
a parse failure into a generation error. -/
def extractJSON (raw : String) : Except String Json :=
  if raw = "" then .error ("Model returned empty response")
  else
    match jsIndexOf raw.data '\x7b', jsLastIndexOf raw.data '\x7d' with
    | some s, some e =>
      (match jsonParse (jsSub raw.data s (e + 1)) with
       | some v => .ok v
       | none => .error ("Failed to parse model JSON"))
    | _, _ => .error ("Model did not return JSON")

/-- Modelled from the spec: the first balanced `\x7b...\x7d` span of a string
("the engine must extract the first balanced `{...}` span").  `balancedFrom`
tracks the brace depth after an opening brace. -/
def balancedFrom : List Char → Nat → List Char → Option (List Char)
  | [], _, _ => none
  | c :: t, d, acc =>
    if c = '\x7b' then balancedFrom t (d + 1) (acc ++ [c])
    else if c = '\x7d' then
      (if d = 1 then some (acc ++ [c]) else balancedFrom t (d - 1) (acc ++ [c]))
    else balancedFrom t d (acc ++ [c])

/-- Modelled from the spec: the leftmost balanced `\x7b...\x7d` span. -/
def firstBalanced : List Char → Option (List Char)
  | [] => none
  | c :: t =>
    if c = '\x7b' then
      match balancedFrom t 1 [c] with
      | some sp => some sp
      | none => firstBalanced t
    else firstBalanced t

/-- Propositional characterization of the first occurrence of `c`. -/
def IsFirstOcc (l : List Char) (c : Char) (i : Nat) : Prop :=
  l[i]? = some c ∧ ∀ j, j < i → l[j]? ≠ some c

/-- Propositional characterization of the last occurrence of `c`. -/
def IsLastOcc (l : List Char) (c : Char) (j : Nat) : Prop :=
  l[j]? = some c ∧ ∀ k, j < k → l[k]? ≠ some c

/- ===================== Permission packs (src/bot/index.js 48-74) ===================== -/

/-- The property names every plain JS object inherits from `Object.prototype`.
Property reads of these names on `PERM_PACKS`, `PermissionsBitField.Flags` and
the state-store objects do NOT yield `undefined`: they yield the inherited
member (a function, or for `__proto__` the prototype object), which is truthy. -/
def isProtoKey (k : String) : Bool :=
  k = "constructor" || k = "toString" || k = "toLocaleString" || k = "valueOf" ||
  k = "hasOwnProperty" || k = "isPrototypeOf" || k = "propertyIsEnumerable" ||
  k = "__proto__" || k = "__defineGetter__" || k = "__defineSetter__" ||
  k = "__lookupGetter__" || k = "__lookupSetter__"

/-- The value of `PERM_PACKS[packName] ?? []`: a permission-flag array (the
seven own packs and the `?? []` default) or, for an `Object.prototype` member
name, the inherited truthy member that `?? []` keeps. -/
inductive PermsVal where
  | flags (l : List Nat)
  | protoFn (name : String)
deriving DecidableEq, Repr

/-- Model of the OWN properties of the fixed `PermissionsBitField.Flags`
object of the platform library for the flag names the repository references;
every name that is neither listed here nor inherited from `Object.prototype`
reads as `undefined` (`none`).  Values are the platform's bit positions as
natural numbers. -/
def flagBit (n : String) : Option Nat :=
  if n = "CreateInstantInvite" then some 1
  else if n = "KickMembers" then some 2
  else if n = "BanMembers" then some 4
  else if n = "Administrator" then some 8
  else if n = "ManageChannels" then some 16
  else if n = "ManageGuild" then some 32
  else if n = "AddReactions" then some 64
  else if n = "ViewAuditLog" then some 128
  else if n = "ViewChannel" then some 1024
  else if n = "SendMessages" then some 2048
  else if n = "ManageMessages" then some 8192
  else if n = "ReadMessageHistory" then some 65536
  else if n = "Connect" then some 1048576
  else if n = "Speak" then some 2097152
  else if n = "ManageRoles" then some 268435456
  else if n = "ModerateMembers" then some 1099511627776
  else none

/-- The OWN properties of the `PERM_PACKS` object (src/bot/index.js 48-70):
seven defined pack names; property lookup on any other name gives `undefined`
(`none`) unless the name is inherited from `Object.prototype`. -/
def PERM_PACKS (p : String) : Option (List Nat) :=
  if p = "owner" then some [8]
  else if p = "admin" then some [32, 268435456, 16, 2, 4, 1099511627776, 8192, 128]
  else if p = "mod" then some [2, 1099511627776, 8192, 128]
  else if p = "helper" then some [8192]
  else if p = "verified" then some []
  else if p = "member" then some []
  else if p = "ping" then some []
  else none

/-- `permsForPack` (src/bot/index.js 72-74): `PERM_PACKS[packName] ?? []`.
For a name inherited from `Object.prototype` (such as `"toString"`) the
property read yields the inherited member, which is neither null nor
undefined, so `?? []` keeps it instead of substituting the empty array. -/
def permsForPack (p : String) : PermsVal :=
  match PERM_PACKS p with
  | some l => .flags l
  | none => if isProtoKey p then .protoFn p else .flags []

/- ===================== Overwrite resolution (src/bot/index.js 210-221) ===================== -/

/-- An `OverrideSpec`: absent string fields are modelled as `""` (undefined and
`""` are both falsy under the `if (ow.targetRoleKey)` test). -/
structure OverwriteSpec where
  target : String
  targetRoleKey : String
  allow : List String
  deny : List String
deriving DecidableEq, Repr

/-- One element of a mapped-and-filtered permission list
(`.map(p => Flags[p]).filter(Boolean)`): a real flag bit, or the truthy
inherited `Object.prototype` member that survives `.filter(Boolean)` when the
textual name is a prototype member name. -/
inductive FlagVal where
  | bit (n : Nat)
  | protoFn (name : String)
deriving DecidableEq, Repr

/-- `names.map(p => PermissionsBitField.Flags[p]).filter(Boolean)`: known
names map to their bit (truthy), `Object.prototype` member names map to the
inherited truthy member and are KEPT, every other name maps to `undefined`
and is dropped. -/
def jsFlagsOf (names : List String) : List FlagVal :=
  names.filterMap (fun n =>
    match flagBit n with
    | some b => some (.bit b)
    | none => if isProtoKey n then some (.protoFn n) else none)

/-- The id slot of an override record or a role-position entry: a recorded
string id, or the truthy inherited member read through the prototype chain. -/
inductive JsId where
  | strId (s : String)
  | protoFn (name : String)
deriving DecidableEq, Repr

/-- The result of a JS property read on a string-valued record object: an own
property, an inherited `Object.prototype` member, or `undefined`. -/
inductive JsStrVal where
  | str (s : String)
  | protoFn (name : String)
  | absent
deriving DecidableEq, Repr

/-- The concrete override record handed to the category-creation call. -/
structure OvRecord where
  id : JsId
  allow : List FlagVal
  deny : List FlagVal
deriving DecidableEq, Repr

/-- Model of `convertOverwrite` (src/bot/index.js 210-221): `id` starts null,
is set to the everyone id when `target === "@everyone"`, is then overwritten by
the role-key lookup whenever `targetRoleKey` is truthy (even if that lookup
fails), and a falsy final `id` (null/undefined/empty) yields null — but a
lookup that hits an inherited `Object.prototype` member yields a TRUTHY value
that passes the `!id` test.  Allow and deny names are mapped through the flag
table by `jsFlagsOf` (`.map(...).filter(Boolean)`). -/
def convertOverwrite (getRoleIdByKey : String → JsStrVal) (everyoneId : String)
    (ow : OverwriteSpec) : Option OvRecord :=
  let id1 : JsStrVal := if ow.target = "@everyone" then .str everyoneId else .absent
  let id2 : JsStrVal :=
    if ow.targetRoleKey ≠ "" then getRoleIdByKey ow.targetRoleKey else id1
  match id2 with
  | .absent => none
  | .protoFn n => some ⟨.protoFn n, jsFlagsOf ow.allow, jsFlagsOf ow.deny⟩
  | .str i =>
    if i = "" then none
    else some ⟨.strId i, jsFlagsOf ow.allow, jsFlagsOf ow.deny⟩

/- ===================== JS numbers for the slow-mode value ===================== -/

/-- JS numbers as they matter to `Math.max(0, Number(ch.slowmode || 0))`:
NaN, the two infinities, and finite values (exact rationals — the expression
does no arithmetic beyond `max`, so no rounding is involved). -/
inductive JsNum where
  | nan
  | inf
  | negInf
  | fin (q : Rat)
deriving DecidableEq, Repr

/-- `ch.slowmode || 0`: undefined, null, NaN and 0 are falsy and give 0;
every other number is truthy and kept.  `Number(·)` on a number is the
identity. -/
def jsOrZero : Option JsNum → JsNum
  | none => .fin 0
  | some .nan => .fin 0
  | some (.fin q) => if q = 0 then .fin 0 else .fin q
  | some .inf => .inf
  | some .negInf => .negInf

/-- `Math.max(0, x)` on JS numbers. -/
def jsMax0 : JsNum → JsNum
  | .nan => .nan
  | .inf => .inf
  | .negInf => .fin 0
  | .fin q => .fin (max 0 q)

/-- The `rateLimitPerUser` value the build engine sends on channel creation
(src/bot/index.js 243): `Math.max(0, Number(ch.slowmode || 0))`. -/
def buildRate (v : Option JsNum) : JsNum := jsMax0 (jsOrZero v)

/- ===================== Template data model ===================== -/

structure RoleSpec where
  key : String
  name : String
  color : String
  hoist : Bool
  mentionable : Bool
  permPack : String
deriving DecidableEq, Repr

/-- A ChannelSpec as the build engine reads it; the build path creates every
channel as a text channel and only reads `name`, `key`, `topic`, `slowmode`.
An absent topic is `""` (falsy, like undefined, under `ch.topic || null`);
an absent slow-mode is `none`. -/
structure ChannelSpec where
  key : String
  name : String
  topic : String
  slowmode : Option JsNum
deriving DecidableEq, Repr

structure CategorySpec where
  key : String
  name : String
  overwrites : List OverwriteSpec
  channels : List ChannelSpec
deriving DecidableEq, Repr

/-- A MessageSpec; absent string fields are `""`. -/
structure MessageSpec where
  channelKey : String
  mtype : String
  title : String
  description : String
  content : String
deriving DecidableEq, Repr

/-- A template as `buildFromTemplate` consumes it; `messages` is optional
(`template.messages || []`). -/
structure Template where
  name : String
  roles : List RoleSpec
  categories : List CategorySpec
  messages : Option (List MessageSpec)
deriving DecidableEq, Repr

/- ===================== State store ===================== -/

/-- The per-guild three key-to-id mappings, as association lists. -/
structure GuildState where
  roles : List (String × String)
  categories : List (String × String)
  channels : List (String × String)
deriving DecidableEq, Repr

/-- JS object property assignment on a string-keyed object. -/
def upsert {β : Type} : List (String × β) → String → β → List (String × β)
  | [], k, v => [(k, v)]
  | (k', v') :: t, k, v =>
    if k' = k then (k, v) :: t else (k', v') :: upsert t k v

/-- Lookup in the OWN-property table of an object (no prototype chain). -/
def lookupKey {β : Type} (m : List (String × β)) (k : String) : Option β :=
  (m.find? (fun e => e.1 == k)).map (fun e => e.2)

/-- JS property assignment of a string value on a record object: it creates or
overwrites an own property — except for the key `"__proto__"`, where the
assignment invokes the inherited `Object.prototype.__proto__` setter, which
ignores a non-object value and records nothing. -/
def jsSet (m : List (String × String)) (k v : String) : List (String × String) :=
  if k = "__proto__" then m else upsert m k v

/-- JS property read on a string-valued record object: the own property if
present, the inherited truthy member for an `Object.prototype` member name,
and `undefined` otherwise.  (The per-guild file lookup keeps plain `lookupKey`:
guild ids are platform-assigned numeric snowflakes, never prototype names.) -/
def jsGet (m : List (String × String)) (k : String) : JsStrVal :=
  match lookupKey m k with
  | some v => .str v
  | none => if isProtoKey k then .protoFn k else .absent

/-- The persisted `guild_state.json` document: one `GuildState` per guild id. -/
abbrev StateFile : Type := List (String × GuildState)

/- ===================== Build engine (src/bot/index.js 164-269) ===================== -/

/-- The remote calls the build engine issues, in order. -/
inductive BCall where
  | createRole (name color : String) (hoist mentionable : Bool) (perms : PermsVal)
  | setPositions (ps : List (JsId × Int))
  | createCategory (name : String) (ows : List OvRecord)
  | createChannel (name parent : String) (topic : Option String) (rate : JsNum)
  | sendEmbed (channelId title description : String)
  | sendText (channelId content : String)
deriving DecidableEq, Repr

/-- The remote platform as an oracle: `results i` is the outcome of the i-th
blocking remote request (created resources get the returned id; a `.error`
models a thrown exception).  `reposition` is the outcome of the batched
`setPositions` request, `fetch` answers `guild.channels.fetch(id)` with
`some isTextBased` on success and `none` when the fetch fails (the code turns
that into `null` and skips). -/
structure BuildEnv where
  results : Nat → Except String String
  reposition : Except String Unit
  everyoneId : String
  highestPosition : Int
  fetch : String → Option Bool

/-- In-flight build state: next oracle index, the in-memory guild state being
mutated, and the log of remote calls made so far. -/
structure BSt where
  idx : Nat
  g : GuildState
  calls : List BCall

/-- One blocking remote request: consume the next oracle answer. -/
def callRemote (results : Nat → Except String String) (st : BSt) (c : BCall) :
    Except String (String × BSt) :=
  match results st.idx with
  | .ok rid => .ok (rid, ⟨st.idx + 1, st.g, st.calls ++ [c]⟩)
  | .error e => .error e

/-- Step 1: create each role in template order and record `key → id`
(src/bot/index.js 171-181). -/
def buildRoles (results : Nat → Except String String) :
    List RoleSpec → BSt → Except String BSt
  | [], st => .ok st
  | r :: rest, st =>
    match callRemote results st
        (.createRole r.name r.color r.hoist r.mentionable (permsForPack r.permPack)) with
    | .error e => .error e
    | .ok (rid, st') =>
      buildRoles results rest
        ⟨st'.idx, { st'.g with roles := jsSet st'.g.roles r.key rid }, st'.calls⟩

/-- The descending position ladder of step 1b (src/bot/index.js 196-200). -/
def ladder (base : Int) : List JsId → List (JsId × Int)
  | [] => []
  | rid :: rest => (rid, base) :: ladder (base - 1) rest

/-- The `try { ... } catch (e) { /- not fatal -/ }` around the reposition
request: whatever the request's outcome, the build continues with the same
state (src/bot/index.js 186-204). -/
def afterReposition (r : Except String Unit) (st : BSt) : BSt :=
  match r with
  | .ok _ => st
  | .error _ => st

/-- Step 3 inner loop: create each channel of a category and record
`key → id` (src/bot/index.js 237-247). -/
def buildChans (results : Nat → Except String String) (catId : String) :
    List ChannelSpec → BSt → Except String BSt
  | [], st => .ok st
  | ch :: rest, st =>
    match callRemote results st
        (.createChannel ch.name catId (if ch.topic = "" then none else some ch.topic)
          (buildRate ch.slowmode)) with
    | .error e => .error e
    | .ok (cid, st') =>
      buildChans results catId rest
        ⟨st'.idx, { st'.g with channels := jsSet st'.g.channels ch.key cid }, st'.calls⟩

/-- Step 3: for each category resolve its overwrites against the current
role mappings, create it, record `key → id`, then create its channels
(src/bot/index.js 224-248). -/
def buildCats (results : Nat → Except String String) (everyoneId : String) :
    List CategorySpec → BSt → Except String BSt
  | [], st => .ok st
  | cat :: rest, st =>
    match callRemote results st
        (.createCategory cat.name
          (cat.overwrites.filterMap
            (convertOverwrite (fun k => jsGet st.g.roles k) everyoneId))) with
    | .error e => .error e
    | .ok (cid, st') =>
      match buildChans results cid cat.channels
          ⟨st'.idx, { st'.g with categories := jsSet st'.g.categories cat.key cid }, st'.calls⟩ with
      | .error e => .error e
      | .ok st'' => buildCats results everyoneId rest st''

/-- Step 4: post starter messages; an unresolved channel key, a failed fetch
or a non-text channel is skipped silently, a message type other than
"embed"/"text" sends nothing, and a send failure aborts
(src/bot/index.js 251-265). -/
def buildMsgs (results : Nat → Except String String) (fetch : String → Option Bool) :
    List MessageSpec → BSt → Except String BSt
  | [], st => .ok st
  | m :: rest, st =>
    match jsGet st.g.channels m.channelKey with
    | .absent => buildMsgs results fetch rest st
    | .protoFn _ =>
      -- fetching the inherited member instead of an id rejects; the
      -- `.catch(() => null)` turns that into null and the message is skipped
      buildMsgs results fetch rest st
    | .str cid =>
      if cid = "" then buildMsgs results fetch rest st
      else
        match fetch cid with
        | none => buildMsgs results fetch rest st
        | some false => buildMsgs results fetch rest st
        | some true =>
          if m.mtype = "embed" then
            match callRemote results st
                (.sendEmbed cid (if m.title = "" then "Message" else m.title) m.description) with
            | .error e => .error e
            | .ok (_, st') => buildMsgs results fetch rest st'
          else if m.mtype = "text" then
            match callRemote results st (.sendText cid m.content) with
            | .error e => .error e
            | .ok (_, st') => buildMsgs results fetch rest st'
          else buildMsgs results fetch rest st

/-- Model of `buildFromTemplate` (src/bot/index.js 164-269).  The persisted
state file is read at the start, the in-memory copy is mutated as resources
are created, and `writeGuildState` runs only after every step succeeded; any
uncaught remote failure aborts with the file untouched.  Returns the build
outcome, the state file after the run, and (on success) the remote calls. -/
def buildFromTemplate (env : BuildEnv) (file : StateFile) (guildId : String)
    (tpl : Template) : Except String GuildState × StateFile × List BCall :=
  let g0 := (lookupKey file guildId).getD ⟨[], [], []⟩
  match buildRoles env.results tpl.roles ⟨0, g0, []⟩ with
  | .error e => (.error e, file, [])
  | .ok st1 =>
    let tids := tpl.roles.filterMap (fun r =>
      match jsGet st1.g.roles r.key with
      | .str rid => if rid = "" then none else some (JsId.strId rid)
      | .protoFn n => some (JsId.protoFn n)
      | .absent => none)
    let st2 : BSt :=
      ⟨st1.idx, st1.g, st1.calls ++ [.setPositions (ladder (env.highestPosition - 1) tids)]⟩
    let st3 := afterReposition env.reposition st2
    match buildCats env.results env.everyoneId tpl.categories st3 with
    | .error e => (.error e, file, [])
    | .ok st4 =>
      match buildMsgs env.results env.fetch (tpl.messages.getD []) st4 with
      | .error e => (.error e, file, [])
      | .ok st5 => (.ok st5.g, upsert file guildId st5.g, st5.calls)

/- ===================== Edit engine (src/bot/index.js 126-159, 280-392) ===================== -/

/-- The channel types the edit engine distinguishes. -/
inductive CType where
  | text
  | announcement
  | category
  | voice
deriving DecidableEq, Repr

structure Role where
  id : String
  name : String
  position : Int
deriving DecidableEq, Repr

structure GChannel where
  id : String
  name : String
  ctype : CType
deriving DecidableEq, Repr

/-- The live guild as the edit engine sees it: role and channel caches in
cache order, the everyone role id, and the acting bot member's highest role
position (`none` models `guild.members.me` being null, which skips the
hierarchy guard). -/
structure EditEnv where
  roles : List Role
  channels : List GChannel
  everyoneId : String
  mePos : Option Int
deriving Repr

/-- The mutation calls the edit engine can issue. -/
inductive ECall where
  | setRoleColor (roleId color : String)
  | setName (channelId newName : String)
  | createChannel (name parentId : String)
  | editEveryoneOverwrite (channelId : String) (sendMessages : Option Bool)
deriving DecidableEq, Repr

/-- The per-command outcome of `runEditCommand`, one constructor per
`return` site of the source (the source returns `{ ok, message }`; the
constructors carry the data interpolated into those messages, and
`notUnderstood` is the final "I didn't understand" return). -/
inductive EditOutcome where
  | unknownColor (colorStr : String)
  | roleNotFound (roleName : String)
  | roleTooHigh
  | changedRoleColor (roleName color : String)
  | channelNotFound (name : String)
  | renamedChannel (newName : String)
  | categoryNotFound (name : String)
  | renamedCategory (newName : String)
  | createdChannel (name categoryName : String)
  | lockedChannel (name : String)
  | unlockedChannel (name : String)
  | notUnderstood
deriving DecidableEq, Repr

/-- The spec's eight edit-action kinds. -/
inductive EditKind where
  | recolorRole
  | renameRole
  | renameChannel
  | renameCategory
  | createChannel
  | lockChannel
  | unlockChannel
  | setSlowmode
deriving DecidableEq, Repr

/-- The mutation kind an outcome resolved to (refusals and misses resolve to
none). -/
def kindOf : EditOutcome → Option EditKind
  | .changedRoleColor _ _ => some .recolorRole
  | .renamedChannel _ => some .renameChannel
  | .renamedCategory _ => some .renameCategory
  | .createdChannel _ _ => some .createChannel
  | .lockedChannel _ => some .lockChannel
  | .unlockedChannel _ => some .unlockChannel
  | _ => none

/-- Items of the anchored regexes of the edit parser: a case-insensitive
literal, `\s+` (modelled as consuming the maximal whitespace run — in every
pattern the run is followed by a non-whitespace literal or a group, so this
matches the regex engine's outcome on the captured, later trimmed, groups),
a lazy group `(.+?)` and a greedy group `(.+)`. -/
inductive PatItem where
  | lit (w : List Char)
  | ws
  | grpLazy
  | grpGreedy

/-- JS `.` (no `s` flag): any character except a line terminator. -/
def isDotChar (c : Char) : Bool :=
  !(c == '\n' || c == '\r' || c == Char.ofNat 0x2028 || c == Char.ofNat 0x2029)

/-- Case-insensitive literal prefix match (the `/i` flag); returns the rest. -/
def ciPrefix : List Char → List Char → Option (List Char)
  | [], input => some input
  | _ :: _, [] => none
  | w :: wrest, c :: t => if jsLower c = jsLower w then ciPrefix wrest t else none

/-- Anchored matching of an item sequence against the whole input, returning
the captured groups in order.  The lazy group tries the shortest capture
first, the greedy group the longest. -/
def matchItems : List PatItem → List Char → Option (List (List Char))
  | [], [] => some []
  | [], _ :: _ => none
  | .lit w :: rest, input =>
    (match ciPrefix w input with
     | some r => matchItems rest r
     | none => none)
  | .ws :: rest, input =>
    (match input with
     | c :: _ =>
       if isJsWhitespace c then matchItems rest (input.dropWhile isJsWhitespace) else none
     | [] => none)
  | .grpLazy :: rest, input =>
    (List.range input.length).findSome? (fun i =>
      let g := input.take (i + 1)
      if g.all isDotChar then
        (matchItems rest (input.drop (i + 1))).map (fun gs => g :: gs)
      else none)
  | .grpGreedy :: rest, input =>
    (List.range input.length).findSome? (fun i =>
      let g := input.take (input.length - i)
      if g.all isDotChar then
        (matchItems rest (input.drop (input.length - i))).map (fun gs => g :: gs)
      else none)

/-- A two-group pattern match. -/
def match2 (pat : List PatItem) (input : List Char) : Option (List Char × List Char) :=
  match matchItems pat input with
  | some [a, b] => some (a, b)
  | _ => none

/-- A one-group pattern match. -/
def match1 (pat : List PatItem) (input : List Char) : Option (List Char) :=
  match matchItems pat input with
  | some [a] => some a
  | _ => none

def strch (s : String) : List Char := s.data

/-- `/^change\s+role\s+(.+?)\s+color\s+to\s+(.+)$/i` -/
def changeRoleColorPat : List PatItem :=
  [.lit (strch ("change")), .ws, .lit (strch ("role")), .ws, .grpLazy, .ws,
   .lit (strch ("color")), .ws, .lit (strch ("to")), .ws, .grpGreedy]

/-- `/^rename\s+channel\s+(.+?)\s+to\s+(.+)$/i` -/
def renameChannelPat : List PatItem :=
  [.lit (strch ("rename")), .ws, .lit (strch ("channel")), .ws, .grpLazy, .ws,
   .lit (strch ("to")), .ws, .grpGreedy]

/-- `/^rename\s+category\s+(.+?)\s+to\s+(.+)$/i` -/
def renameCategoryPat : List PatItem :=
  [.lit (strch ("rename")), .ws, .lit (strch ("category")), .ws, .grpLazy, .ws,
   .lit (strch ("to")), .ws, .grpGreedy]

/-- `/^create\s+channel\s+(.+?)\s+in\s+category\s+(.+)$/i` -/
def createChannelPat : List PatItem :=
  [.lit (strch ("create")), .ws, .lit (strch ("channel")), .ws, .grpLazy, .ws,
   .lit (strch ("in")), .ws, .lit (strch ("category")), .ws, .grpGreedy]

/-- The `lock` alternative of `/^(lock|unlock)\s+channel\s+(.+)$/i`. -/
def lockPat : List PatItem :=
  [.lit (strch ("lock")), .ws, .lit (strch ("channel")), .ws, .grpGreedy]

/-- The `unlock` alternative of `/^(lock|unlock)\s+channel\s+(.+)$/i`. -/
def unlockPat : List PatItem :=
  [.lit (strch ("unlock")), .ws, .lit (strch ("channel")), .ws, .grpGreedy]

/-- The named-color table of `normalizeColor` (src/bot/index.js 126-150). -/
def namedColor (s : String) : Option String :=
  if s = "black" then some ("#000000")
  else if s = "white" then some ("#ffffff")
  else if s = "red" then some ("#ff0000")
  else if s = "green" then some ("#00ff00")
  else if s = "blue" then some ("#0000ff")
  else if s = "yellow" then some ("#ffff00")
  else if s = "orange" then some ("#ffa500")
  else if s = "purple" then some ("#800080")
  else if s = "pink" then some ("#ff69b4")
  else if s = "cyan" then some ("#00ffff")
  else if s = "gray" then some ("#808080")
  else if s = "grey" then some ("#808080")
  else none

/-- `/^[0-9a-f]{6}$/i` (the input is already lowercased at the call site). -/
def isHex6 (l : List Char) : Bool :=
  l.length == 6 && l.all (fun c =>
    (48 ≤ c.toNat && c.toNat ≤ 57) || (97 ≤ c.toNat && c.toNat ≤ 102) ||
    (65 ≤ c.toNat && c.toNat ≤ 70))

/-- Model of `normalizeColor` (src/bot/index.js 126-150): trim and lowercase,
look up the named table, accept any 7-character string starting with `#`
verbatim, prefix `#` to a 6-hex-digit string, otherwise null. -/
def normalizeColor (input : String) : Option String :=
  let s : String := ⟨(jsTrim input.data).map jsLower⟩
  match namedColor s with
  | some c => some c
  | none =>
    if s.data.head? = some '#' ∧ s.data.length = 7 then some s
    else if isHex6 s.data then some ("#" ++ s)
    else none

/-- Model of `runEditCommand` (src/bot/index.js 280-392): trim the raw text,
try the five anchored patterns in source order, and run the matching branch;
no pattern ends in the "I didn't understand" outcome.  Returns the outcome
and the mutation calls issued. -/
def runEditCommand (env : EditEnv) (rawText : String) : EditOutcome × List ECall :=
  let text := jsTrim rawText.data
  match match2 changeRoleColorPat text with
  | some (g1, g2) =>
    let roleName := jsTrim g1
    let colorStr := jsTrim g2
    (match normalizeColor ⟨colorStr⟩ with
     | none => (.unknownColor ⟨colorStr⟩, [])
     | some color =>
       match env.roles.find? (fun r => r.name.data.map jsLower == roleName.map jsLower) with
       | none => (.roleNotFound ⟨roleName⟩, [])
       | some role =>
         match env.mePos with
         | some top =>
           if role.position ≥ top then (.roleTooHigh, [])
           else (.changedRoleColor role.name color, [.setRoleColor role.id color])
         | none => (.changedRoleColor role.name color, [.setRoleColor role.id color]))
  | none =>
  match match2 renameChannelPat text with
  | some (g1, g2) =>
    let oldName := jsTrim g1
    let newName : List Char := (replRun isJsWhitespace '-' false (jsTrim g2)).map jsLower
    (match env.channels.find? (fun c =>
        (c.ctype == CType.text || c.ctype == CType.announcement) &&
        c.name.data.map jsLower == oldName.map jsLower) with
     | none => (.channelNotFound ⟨oldName⟩, [])
     | some ch => (.renamedChannel ⟨newName⟩, [.setName ch.id ⟨newName⟩]))
  | none =>
  match match2 renameCategoryPat text with
  | some (g1, g2) =>
    let oldName := jsTrim g1
    let newName := jsTrim g2
    (match env.channels.find? (fun c =>
        c.ctype == CType.category && c.name.data.map jsLower == oldName.map jsLower) with
     | none => (.categoryNotFound ⟨oldName⟩, [])
     | some cat => (.renamedCategory ⟨newName⟩, [.setName cat.id ⟨newName⟩]))
  | none =>
  match match2 createChannelPat text with
  | some (g1, g2) =>
    let chanName : List Char := (replRun isJsWhitespace '-' false (jsTrim g1)).map jsLower
    let catName := jsTrim g2
    (match env.channels.find? (fun c =>
        c.ctype == CType.category && c.name.data.map jsLower == catName.map jsLower) with
     | none => (.categoryNotFound ⟨catName⟩, [])
     | some cat => (.createdChannel ⟨chanName⟩ cat.name, [.createChannel ⟨chanName⟩ cat.id]))
  | none =>
  match match1 lockPat text with
  | some g2 =>
    let chanName := jsTrim g2
    (match env.channels.find? (fun c =>
        c.ctype == CType.text && c.name.data.map jsLower == chanName.map jsLower) with
     | none => (.channelNotFound ⟨chanName⟩, [])
     | some ch => (.lockedChannel ch.name, [.editEveryoneOverwrite ch.id (some false)]))
  | none =>
  match match1 unlockPat text with
  | some g2 =>
    let chanName := jsTrim g2
    (match env.channels.find? (fun c =>
        c.ctype == CType.text && c.name.data.map jsLower == chanName.map jsLower) with
     | none => (.channelNotFound ⟨chanName⟩, [])
     | some ch => (.unlockedChannel ch.name, [.editEveryoneOverwrite ch.id none]))
  | none => (.notUnderstood, [])

/-- A small live guild for concrete edit-engine runs: the bot's top role is
high, so the hierarchy guard passes. -/
def demoEnv : EditEnv :=
  { roles := [⟨"r_admin", "Admin", 2⟩],
    channels := [⟨"c_chat", "chat", CType.text⟩, ⟨"c_info", "INFO", CType.category⟩],
    everyoneId := "ev0",
    mePos := some 10 }

/-- A guild where the target role sits exactly at the bot's highest position,
so the hierarchy guard must refuse. -/
def guardEnv : EditEnv :=
  { roles := [⟨"r_admin", "Admin", 5⟩],
    channels := [],
    everyoneId := "ev0",
    mePos := some 5 }

/- ===================== Concrete build fixtures ===================== -/

/-- Oracle whose first remote call succeeds with id `rid1` and whose second
call throws `boom`. -/
def cexEnv : BuildEnv :=
  { results := fun i => if i = 0 then .ok ("rid1") else .error ("boom"),
    reposition := .ok (),
    everyoneId := "E",
    highestPosition := 10,
    fetch := fun _ => none }

/-- One role and one category: the role creation (step 1) succeeds, the
category creation (step 3) fails. -/
def cexTpl : Template :=
  { name := "T",
    roles := [⟨"r1", "Mods", "#fff", false, false, "mod"⟩],
    categories := [⟨"c1", "Info", [], []⟩],
    messages := none }

/- ===================== Theorems ===================== -/

/-- Helper: the try/catch around the reposition request discards its outcome. -/
theorem afterReposition_id (r : Except String Unit) (st : BSt) : afterReposition r st = st := by
  cases r <;> rfl

/-- Counterexample to claim C6 as stated: `"toString"` is not one of the seven
defined pack names, yet `PERM_PACKS["toString"]` is the member inherited from
`Object.prototype` — truthy, so `?? []` keeps it and `permsForPack` does NOT
return the empty set. -/
theorem permsForPack_toString_leaks :
    permsForPack ("toString") = PermsVal.protoFn ("toString") ∧
    PermsVal.protoFn ("toString") ≠ PermsVal.flags [] :=
  ⟨rfl, by simp⟩

/-- Claim C6 (amended): for every pack name that is neither one of the seven
defined pack names nor a property name inherited from `Object.prototype`,
`permsForPack` returns the empty flag set, which is not a superset of any
nonempty defined pack; prototype member names such as `"toString"` instead
leak the inherited truthy member (which is not a permission-flag set). -/
theorem permsForPack_unknown_nonproto_empty (p : String)
    (h1 : p ≠ "owner") (h2 : p ≠ "admin") (h3 : p ≠ "mod") (h4 : p ≠ "helper")
    (h5 : p ≠ "verified") (h6 : p ≠ "member") (h7 : p ≠ "ping")
    (h8 : isProtoKey p = false) :
    permsForPack p = PermsVal.flags [] ∧
    (∀ q l, PERM_PACKS q = some l → l ≠ [] → ¬ l ⊆ ([] : List Nat)) := by
  constructor
  · unfold permsForPack PERM_PACKS
    simp [h1, h2, h3, h4, h5, h6, h7, h8]
  · intro q l _ hne hsub
    exact hne (List.subset_nil.mp hsub)

/-- Witness for C6 at the spec's own example name. -/
theorem permsForPack_unknown_nonproto_empty_witness :
    permsForPack ("not_a_real_pack") = PermsVal.flags [] ∧
    (∀ q l, PERM_PACKS q = some l → l ≠ [] → ¬ l ⊆ ([] : List Nat)) :=
  permsForPack_unknown_nonproto_empty ("not_a_real_pack") (by decide) (by decide)
    (by decide) (by decide) (by decide) (by decide) (by decide) (by decide)

/-- Counterexample to claim C3 as stated: an OverrideSpec carrying both the
"@everyone" target and a resolvable role key resolves to a record targeting
the ROLE id, not the everyone id — the role key wins, because the role-key
assignment overwrites the everyone id in `convertOverwrite`. -/
theorem convertOverwrite_everyone_loses :
    convertOverwrite (fun k => if k = ("mod") then JsStrVal.str ("R5") else .absent) ("E1")
      ⟨"@everyone", "mod", [], []⟩ = some ⟨.strId ("R5"), [], []⟩ ∧
    JsId.strId ("R5") ≠ JsId.strId ("E1") := by
  exact ⟨rfl, by decide⟩

/-- Claim C3 (amended): when an OverrideSpec carries both the "@everyone"
target and a non-empty role key, the role key wins: the override targets the
resolved role id (with unknown flag names dropped), and when the role key does
NOT resolve (or resolves to a falsy id) the override resolves to null — it
never falls back to the everyone target. -/
theorem convertOverwrite_roleKey_wins (lookup : String → JsStrVal) (eid : String)
    (ow : OverwriteSpec) (ht : ow.target = "@everyone") (hk : ow.targetRoleKey ≠ "") :
    convertOverwrite lookup eid ow =
      match lookup ow.targetRoleKey with
      | .str rid =>
        if rid = "" then none
        else some ⟨.strId rid, jsFlagsOf ow.allow, jsFlagsOf ow.deny⟩
      | .protoFn n => some ⟨.protoFn n, jsFlagsOf ow.allow, jsFlagsOf ow.deny⟩
      | .absent => none := by
  simp only [convertOverwrite]
  rw [if_pos hk]
  cases lookup ow.targetRoleKey with
  | str rid => rfl
  | protoFn n => rfl
  | absent => rfl

/-- Witness for C3's amended claim at a concrete spec. -/
theorem convertOverwrite_roleKey_wins_witness :
    convertOverwrite (fun k => if k = ("helper") then JsStrVal.str ("R7") else .absent) ("E9")
      ⟨"@everyone", "helper", ["ViewChannel"], ["NotARealFlag"]⟩ =
      some ⟨.strId ("R7"), [.bit 1024], []⟩ := by
  rw [convertOverwrite_roleKey_wins _ _ _ rfl (by decide)]
  rfl

/-- Counterexample to claim C8 as stated: an OverrideSpec whose target is not
"@everyone" and whose role key `"toString"` was never recorded still resolves
to a record — the state-object read falls through to the inherited
`Object.prototype.toString`, which is truthy and passes the `!id` test — and
the unknown allow-name `"toString"` is NOT dropped by `.filter(Boolean)`,
because `Flags["toString"]` is the same inherited truthy member. -/
theorem convertOverwrite_protoKey_leaks :
    convertOverwrite (fun k => jsGet [] k) ("E1") ⟨"", "toString", ["toString"], []⟩ =
      some ⟨.protoFn ("toString"), [.protoFn ("toString")], []⟩ ∧
    (some ⟨.protoFn ("toString"), [.protoFn ("toString")], []⟩ : Option OvRecord) ≠ none :=
  ⟨rfl, by simp⟩

/-- Claim C8 (amended): an OverrideSpec with neither the "@everyone" target
nor a role key that is recorded — provided the key is not an
`Object.prototype` member name — converts to none and contributes no record
to the category's override list; a converted record's allow and deny lists
are exactly `jsFlagsOf` of the spec's lists, in which a flag name outside the
fixed flag table is silently dropped (without failing the override) exactly
when it is not an `Object.prototype` member name — prototype names like
`"toString"` survive the filter as inherited truthy members. -/
theorem convertOverwrite_unresolved_nonproto_and_flags :
    (∀ (m : List (String × String)) (eid : String) (ow : OverwriteSpec),
      ow.target ≠ "@everyone" →
      (ow.targetRoleKey = "" ∨
        (lookupKey m ow.targetRoleKey = none ∧ isProtoKey ow.targetRoleKey = false)) →
      convertOverwrite (fun k => jsGet m k) eid ow = none) ∧
    (∀ (lookup : String → JsStrVal) (eid : String) (ow : OverwriteSpec) (r : OvRecord),
      convertOverwrite lookup eid ow = some r →
      r.allow = jsFlagsOf ow.allow ∧ r.deny = jsFlagsOf ow.deny) ∧
    (∀ (n : String) (names : List String), flagBit n = none → isProtoKey n = false →
      jsFlagsOf (n :: names) = jsFlagsOf names) ∧
    (∀ (lookup : String → JsStrVal) (eid : String) (ow : OverwriteSpec)
      (ows : List OverwriteSpec),
      convertOverwrite lookup eid ow = none →
      (ow :: ows).filterMap (convertOverwrite lookup eid) =
        ows.filterMap (convertOverwrite lookup eid)) := by
  refine ⟨?_, ?_, ?_, ?_⟩
  · intro m eid ow h1 h2
    by_cases hk : ow.targetRoleKey = ""
    · simp [convertOverwrite, hk, h1]
    · rcases h2 with he | ⟨hl, hp⟩
      · exact absurd he hk
      · simp [convertOverwrite, hk, h1, jsGet, hl, hp]
  · intro lookup eid ow r h
    simp only [convertOverwrite] at h
    rcases hid : (if ow.targetRoleKey ≠ "" then lookup ow.targetRoleKey
        else if ow.target = "@everyone" then JsStrVal.str eid else .absent) with i | n | _
    · rw [hid] at h
      by_cases hi : i = ""
      · simp [hi] at h
      · simp [hi] at h
        simp [← h]
    · rw [hid] at h
      simp at h
      simp [← h]
    · rw [hid] at h
      exact absurd h (by simp)
  · intro n names hf hp
    simp [jsFlagsOf, List.filterMap_cons, hf, hp]
  · intro lookup eid ow ows h
    simp [List.filterMap_cons, h]

/-- Witness for C8's amended claim at a concrete unresolvable spec. -/
theorem convertOverwrite_unresolved_nonproto_and_flags_witness :
    convertOverwrite (fun k => jsGet [] k) ("E1") ⟨"", "ghost", [], []⟩ = none :=
  convertOverwrite_unresolved_nonproto_and_flags.1 [] ("E1") ⟨"", "ghost", [], []⟩
    (by decide) (Or.inr ⟨rfl, by decide⟩)

/-- Counterexample to claim C10 as stated: a slow-mode of +Infinity is
non-finite but is NOT clamped to 0 — `Infinity || 0` keeps Infinity and
`Math.max(0, Infinity)` is Infinity. -/
theorem buildRate_infinity_passes :
    buildRate (some JsNum.inf) = JsNum.inf ∧ JsNum.inf ≠ JsNum.fin 0 :=
  ⟨rfl, by intro h; exact JsNum.noConfusion h⟩

/-- Claim C10 (amended): the slow-mode value sent on channel creation is
`Math.max(0, Number(slowmode || 0))`: never NaN or -Infinity; absent, null,
NaN, zero and negative (including -Infinity) slow-modes become 0; non-negative
finite values pass through unchanged; +Infinity passes through as +Infinity
(it is not clamped to 0). -/
theorem buildRate_clamps :
    (∀ (v : Option JsNum) (q : Rat), buildRate v = .fin q → 0 ≤ q) ∧
    (∀ v : Option JsNum, buildRate v ≠ .nan ∧ buildRate v ≠ .negInf) ∧
    buildRate none = .fin 0 ∧
    buildRate (some .nan) = .fin 0 ∧
    buildRate (some .negInf) = .fin 0 ∧
    (∀ q : Rat, q ≤ 0 → buildRate (some (.fin q)) = .fin 0) ∧
    (∀ q : Rat, 0 ≤ q → buildRate (some (.fin q)) = .fin q) ∧
    buildRate (some .inf) = .inf := by
  refine ⟨?_, ?_, ?_, ?_, ?_, ?_, ?_, ?_⟩
  · intro v q h
    rcases v with _ | x
    · simp [buildRate, jsOrZero, jsMax0] at h
      exact h.le
    · rcases x with _ | _ | _ | p
      · simp [buildRate, jsOrZero, jsMax0] at h
        exact h.le
      · simp [buildRate, jsOrZero, jsMax0] at h
      · simp [buildRate, jsOrZero, jsMax0] at h
        exact h.le
      · by_cases hp : p = 0
        · subst hp
          simp [buildRate, jsOrZero, jsMax0] at h
          exact h.le
        · simp [buildRate, jsOrZero, jsMax0, hp] at h
          exact h ▸ le_max_left 0 p
  · intro v
    rcases v with _ | x
    · exact ⟨by simp [buildRate, jsOrZero, jsMax0], by simp [buildRate, jsOrZero, jsMax0]⟩
    · rcases x with _ | _ | _ | p
      · exact ⟨by simp [buildRate, jsOrZero, jsMax0], by simp [buildRate, jsOrZero, jsMax0]⟩
      · exact ⟨by simp [buildRate, jsOrZero, jsMax0], by simp [buildRate, jsOrZero, jsMax0]⟩
      · exact ⟨by simp [buildRate, jsOrZero, jsMax0], by simp [buildRate, jsOrZero, jsMax0]⟩
      · by_cases hp : p = 0 <;>
          exact ⟨by simp [buildRate, jsOrZero, jsMax0, hp],
                 by simp [buildRate, jsOrZero, jsMax0, hp]⟩
  · simp [buildRate, jsOrZero, jsMax0]
  · rfl
  · rfl
  · intro q hq
    by_cases hp : q = 0
    · subst hp
      simp [buildRate, jsOrZero, jsMax0]
    · simp [buildRate, jsOrZero, jsMax0, hp, max_eq_left hq]
  · intro q hq
    by_cases hp : q = 0
    · subst hp
      simp [buildRate, jsOrZero, jsMax0]
    · simp [buildRate, jsOrZero, jsMax0, hp, max_eq_right hq]
  · rfl

/-- Witness for C10's amended claim: a negative slow-mode is clamped to 0. -/
theorem buildRate_clamps_witness :
    buildRate (some (JsNum.fin (-3))) = JsNum.fin 0 :=
  buildRate_clamps.2.2.2.2.2.1 (-3) (by norm_num)

/-- Counterexample to claim C1 as stated: with a template of one role and one
category, an oracle that creates the role (id `rid1`) and then throws on the
category creation aborts the build, and the persisted state file afterwards is
still empty — the `r1 → rid1` mapping recorded in memory before the failure is
NOT in the persisted store (persistence only happens after step 5). -/
theorem buildFromTemplate_abort_drops_recorded_mappings :
    (buildFromTemplate cexEnv [] ("g") cexTpl).1 = .error ("boom") ∧
    (buildFromTemplate cexEnv [] ("g") cexTpl).2.1 = [] := by
  exact ⟨rfl, rfl⟩

/-- Claim C1 (amended): if any remote creation call fails during steps 1, 3 or
4, the build aborts and the persisted per-workspace State Store is left
exactly as it was before the build (no key-to-id mappings recorded during the
aborted run are persisted); only a fully successful build writes the store,
and then with the merged guild state. -/
theorem buildFromTemplate_persists_only_on_success (env : BuildEnv) (file : StateFile)
    (gid : String) (tpl : Template) :
    (buildFromTemplate env file gid tpl).2.1 = file ∨
    ∃ g, (buildFromTemplate env file gid tpl).1 = .ok g ∧
      (buildFromTemplate env file gid tpl).2.1 = upsert file gid g := by
  simp only [buildFromTemplate]
  split
  · exact Or.inl rfl
  · split
    · exact Or.inl rfl
    · split
      · exact Or.inl rfl
      · exact Or.inr ⟨_, rfl, rfl⟩

/-- Claim C9: an exception thrown by the role-reposition step is caught and
ignored — the whole build (categories, channels, messages, state-store
persistence and the call log) is exactly what it would have been had
repositioning succeeded. -/
theorem reposition_failure_ignored (msg : String) (env : BuildEnv) (file : StateFile)
    (gid : String) (tpl : Template) :
    buildFromTemplate { env with reposition := .error msg } file gid tpl =
    buildFromTemplate { env with reposition := .ok () } file gid tpl := by
  cases env
  simp only [buildFromTemplate, afterReposition_id]

/-- Counterexample to claim C5 as stated: no input to the edit engine ever
resolves to the rename-role kind (nor to the set-slow-mode kind); the natural
rename-role phrasing falls through to the "I didn't understand" outcome. -/
theorem editEngine_no_renameRole :
    (¬ ∃ (env : EditEnv) (t : String),
        kindOf (runEditCommand env t).1 = some EditKind.renameRole) ∧
    (runEditCommand demoEnv ("rename role Admin to Boss")).1 = EditOutcome.notUnderstood := by
  constructor
  · rintro ⟨env, t, h⟩
    cases hh : (runEditCommand env t).1 <;> rw [hh] at h <;> simp [kindOf] at h
  · decide

/-- Claim C5 (amended): the edit engine recognizes exactly six mutation kinds
— recolor role, rename channel, rename category, create channel in category,
lock channel, unlock channel — each witnessed by an accepted input that
resolves to that kind; rename-role and set-slow-mode inputs are never
recognized (no input resolves to those kinds); and EVERY input matched by none
of the engine's patterns yields the explicit "I didn't understand" outcome
with zero mutation calls (final conjunct, universal over all guilds and
inputs). -/
theorem editEngine_six_kinds :
    kindOf (runEditCommand demoEnv ("change role Admin color to black")).1 =
      some EditKind.recolorRole ∧
    kindOf (runEditCommand demoEnv ("rename channel chat to general")).1 =
      some EditKind.renameChannel ∧
    kindOf (runEditCommand demoEnv ("rename category INFO to Community")).1 =
      some EditKind.renameCategory ∧
    kindOf (runEditCommand demoEnv ("create channel trading in category INFO")).1 =
      some EditKind.createChannel ∧
    kindOf (runEditCommand demoEnv ("lock channel chat")).1 = some EditKind.lockChannel ∧
    kindOf (runEditCommand demoEnv ("unlock channel chat")).1 = some EditKind.unlockChannel ∧
    (runEditCommand demoEnv ("set slowmode 5 in general")).1 = EditOutcome.notUnderstood ∧
    (runEditCommand demoEnv ("please make it nicer")).1 = EditOutcome.notUnderstood ∧
    (∀ (env : EditEnv) (t : String),
      kindOf (runEditCommand env t).1 ≠ some EditKind.renameRole ∧
      kindOf (runEditCommand env t).1 ≠ some EditKind.setSlowmode) ∧
    (∀ (env : EditEnv) (t : String),
      match2 changeRoleColorPat (jsTrim t.data) = none →
      match2 renameChannelPat (jsTrim t.data) = none →
      match2 renameCategoryPat (jsTrim t.data) = none →
      match2 createChannelPat (jsTrim t.data) = none →
      match1 lockPat (jsTrim t.data) = none →
      match1 unlockPat (jsTrim t.data) = none →
      runEditCommand env t = (EditOutcome.notUnderstood, [])) := by
  refine ⟨by decide, by decide, by decide, by decide, by decide, by decide, by decide,
    by decide, ?_, ?_⟩
  · intro env t
    constructor <;>
      (cases hh : (runEditCommand env t).1 <;> simp [kindOf])
  · intro env t h1 h2 h3 h4 h5 h6
    simp only [runEditCommand, h1, h2, h3, h4, h5, h6]

/-- Witness for C5's universal fallthrough conjunct at a concrete unmatched
input. -/
theorem editEngine_six_kinds_witness :
    runEditCommand demoEnv ("set slowmode 5 in general") =
      (EditOutcome.notUnderstood, []) :=
  editEngine_six_kinds.2.2.2.2.2.2.2.2.2 demoEnv ("set slowmode 5 in general")
    (by decide) (by decide) (by decide) (by decide) (by decide) (by decide)

/-- Claim C7: a recolor-role command whose resolved target role sits at or
above the acting identity's highest role position yields the "too high"
refusal outcome and issues zero mutation calls. -/
theorem hierarchy_guard_refuses (env : EditEnv) (text : String)
    (g1 g2 : List Char) (color : String) (role : Role) (top : Int)
    (hm : match2 changeRoleColorPat (jsTrim text.data) = some (g1, g2))
    (hc : normalizeColor ⟨jsTrim g2⟩ = some color)
    (hr : env.roles.find?
        (fun r => r.name.data.map jsLower == (jsTrim g1).map jsLower) = some role)
    (hme : env.mePos = some top)
    (hpos : role.position ≥ top) :
    runEditCommand env text = (EditOutcome.roleTooHigh, []) := by
  simp only [runEditCommand, hm, hc, hr, hme]
  rw [if_pos hpos]

/-- Witness for C7: role at position 5, acting identity's top role at 5. -/
theorem hierarchy_guard_refuses_witness :
    runEditCommand guardEnv ("change role Admin color to black") =
      (EditOutcome.roleTooHigh, []) :=
  hierarchy_guard_refuses guardEnv ("change role Admin color to black")
    (strch ("Admin")) (strch ("black")) ("#000000") ⟨"r_admin", "Admin", 5⟩ 5
    (by decide) (by decide) (by decide) rfl (by decide)

/- ===================== Normalizer lemmas (claim C2) ===================== -/

/-- Helper: `firstIdxFrom` computes exactly the first occurrence. -/
theorem firstIdxFrom_iff (c : Char) (l : List Char) :
    ∀ i, firstIdxFrom c l = some i ↔ IsFirstOcc l c i := by
  induction l with
  | nil =>
    intro i
    simp [firstIdxFrom, IsFirstOcc]
  | cons x t ih =>
    intro i
    by_cases hx : x = c
    · subst hx
      simp only [firstIdxFrom, if_pos rfl]
      constructor
      · intro h
        injection h with h
        subst h
        exact ⟨by simp, fun j hj => absurd hj (Nat.not_lt_zero j)⟩
      · rintro ⟨h1, h2⟩
        cases i with
        | zero => rfl
        | succ n =>
          exact absurd (by simp : (x :: t)[0]? = some x) (h2 0 (Nat.succ_pos n))
    · simp only [firstIdxFrom, if_neg hx]
      constructor
      · intro h
        rcases Option.map_eq_some'.mp h with ⟨j, hj, hji⟩
        obtain ⟨ha, hb⟩ := (ih j).mp hj
        subst hji
        refine ⟨by simpa using ha, ?_⟩
        intro k hk
        cases k with
        | zero =>
          simp only [List.getElem?_cons_zero]
          intro hcon
          exact hx (Option.some.inj hcon)
        | succ m =>
          rw [List.getElem?_cons_succ]
          exact hb m (Nat.lt_of_succ_lt_succ hk)
      · rintro ⟨h1, h2⟩
        cases i with
        | zero =>
          rw [List.getElem?_cons_zero] at h1
          exact absurd (Option.some.inj h1) hx
        | succ n =>
          have hIF : IsFirstOcc t c n := by
            refine ⟨by simpa using h1, ?_⟩
            intro j hj
            have := h2 (j + 1) (Nat.succ_lt_succ hj)
            simpa using this
          rw [(ih n).mpr hIF]
          rfl

/-- Helper: a a present index is in bounds. -/
theorem getElem?_lt_length (l : List Char) (i : Nat) (c : Char) (h : l[i]? = some c) :
    i < l.length := by
  by_contra hcon
  push_neg at hcon
  rw [List.getElem?_eq_none hcon] at h
  exact absurd h (by simp)

/-- Helper: `jsLastIndexOf` computes exactly the last occurrence. -/
theorem jsLastIndexOf_iff (l : List Char) (c : Char) (j : Nat) :
    jsLastIndexOf l c = some j ↔ IsLastOcc l c j := by
  unfold jsLastIndexOf
  constructor
  · intro h
    rcases Option.map_eq_some'.mp h with ⟨i, hi, hij⟩
    obtain ⟨h1, h2⟩ := (firstIdxFrom_iff c l.reverse i).mp hi
    have hilt : i < l.length := by
      have := getElem?_lt_length l.reverse i c h1
      simpa using this
    have hj : j = l.length - 1 - i := hij.symm
    subst hj
    constructor
    · rw [← h1, List.getElem?_reverse (by simpa using hilt)]
    · intro k hk hcon
      have hklt : k < l.length := getElem?_lt_length l k c hcon
      have hrev : l.reverse[l.length - 1 - k]? = some c := by
        rw [List.getElem?_reverse (by simpa using (by omega : l.length - 1 - k < l.length))]
        rw [show l.length - 1 - (l.length - 1 - k) = k from by omega]
        exact hcon
      exact h2 (l.length - 1 - k) (by omega) hrev
  · rintro ⟨h1, h2⟩
    have hjlt : j < l.length := getElem?_lt_length l j c h1
    have hIF : IsFirstOcc l.reverse c (l.length - 1 - j) := by
      constructor
      · rw [List.getElem?_reverse (by simpa using (by omega : l.length - 1 - j < l.length))]
        rw [show l.length - 1 - (l.length - 1 - j) = j from by omega]
        exact h1
      · intro k hk hcon
        have hklt : k < l.length := by
          have := getElem?_lt_length l.reverse k c hcon
          simpa using this
        rw [List.getElem?_reverse (by simpa using hklt)] at hcon
        exact h2 (l.length - 1 - k) (by omega) hcon
    rw [(firstIdxFrom_iff c l.reverse (l.length - 1 - j)).mpr hIF]
    simp only [Option.map_some']
    rw [show l.length - 1 - (l.length - 1 - j) = j from by omega]

/-- Counterexample to claim C4 as stated: the raw output `"{} {}"` (written
with escaped braces) has `"{}"` as its first balanced span, which parses to
the empty object — but `extractJSON` takes the substring from the first
opening brace to the LAST closing brace, `"{} {}"`, which fails to parse, so
it raises a generation error instead of returning that parse. -/
theorem extractJSON_not_first_balanced :
    firstBalanced (strch ("\x7b\x7d \x7b\x7d")) = some (strch ("\x7b\x7d")) ∧
    jsonParse (strch ("\x7b\x7d")) = some (Json.obj []) ∧
    extractJSON ("\x7b\x7d \x7b\x7d") = .error ("Failed to parse model JSON") :=
  ⟨rfl, rfl, rfl⟩

/-- Claim C4 (amended): `extractJSON` succeeds with value `v` exactly when the
input has a first `\x7b` at some index i and a last `\x7d` at some index j and
the substring between them (inclusive) JSON-parses to `v`; in every other case
— empty input, no `\x7b`, no `\x7d`, or a span that fails to parse — it raises
a generation error rather than returning a default structure. -/
theorem extractJSON_ok_iff (raw : String) (v : Json) :
    extractJSON raw = .ok v ↔
      ∃ i j, IsFirstOcc raw.data '\x7b' i ∧ IsLastOcc raw.data '\x7d' j ∧
        jsonParse (jsSub raw.data i (j + 1)) = some v := by
  unfold extractJSON
  by_cases hraw : raw = ""
  · subst hraw
    rw [if_pos rfl]
    constructor
    · intro h
      exact absurd h (by simp)
    · rintro ⟨i, j, ⟨h1, _⟩, _, _⟩
      rw [show ("" : String).data = [] from rfl] at h1
      simp at h1
  · rw [if_neg hraw]
    cases hI : jsIndexOf raw.data '\x7b' with
    | none =>
      constructor
      · intro h
        cases hJ : jsLastIndexOf raw.data '\x7d' <;> rw [hJ] at h <;> simp at h
      · rintro ⟨i, j, hF, _, _⟩
        have := (firstIdxFrom_iff '\x7b' raw.data i).mpr hF
        rw [show jsIndexOf raw.data '\x7b' = firstIdxFrom '\x7b' raw.data from rfl] at hI
        rw [this] at hI
        exact absurd hI (by simp)
    | some s' =>
      cases hJ : jsLastIndexOf raw.data '\x7d' with
      | none =>
        constructor
        · intro h
          simp at h
        · rintro ⟨i, j, _, hL, _⟩
          have := (jsLastIndexOf_iff raw.data '\x7d' j).mpr hL
          rw [this] at hJ
          exact absurd hJ (by simp)
      | some e' =>
        constructor
        · intro h
          dsimp only [] at h
          cases hP : jsonParse (jsSub raw.data s' (e' + 1)) with
          | none =>
            rw [hP] at h
            simp at h
          | some v' =>
            rw [hP] at h
            simp only [] at h
            have hv : v' = v := by
              cases h
              rfl
            subst hv
            exact ⟨s', e', (firstIdxFrom_iff '\x7b' raw.data s').mp hI,
              (jsLastIndexOf_iff raw.data '\x7d' e').mp hJ, hP⟩
        · rintro ⟨i, j, hF, hL, hP⟩
          have hi : i = s' := by
            have hmk := (firstIdxFrom_iff '\x7b' raw.data i).mpr hF
            rw [show jsIndexOf raw.data '\x7b' = firstIdxFrom '\x7b' raw.data from rfl] at hI
            rw [hmk] at hI
            exact Option.some.inj hI
          have hj : j = e' := by
            have hmk := (jsLastIndexOf_iff raw.data '\x7d' j).mpr hL
            rw [hmk] at hJ
            exact Option.some.inj hJ
          subst hi
          subst hj
          dsimp only []
          rw [hP]
